import Mathlib

/-!
# Plik SQL metadata backend

A shallow embedding of `server/metadataBackend/sql/sql.go`: the methods of
`MetadataBackend` (Create, Get, AddOrUpdateFile, RemoveFile, Remove,
GetUploadsToRemove, SaveUser, GetUser, RemoveUser, GetUserUploads) as functions
that pass the relational store explicitly.

The store is the external collaborator behind the ORM handle `smb.db`.  It is
modelled as four tables, a list of open transactions with their pending
writes, and a trace of the statements issued.  Every statement takes the
failure the engine reports for it (`none` when it answers), so that each
method is a total function of the store, a per-call failure schedule and its
arguments.  What is assumed of the ORM and the engine:

* a statement that fails, or that is refused for a duplicate key, changes no
  row;
* a write on the shared handle is committed at once; a write on a transaction
  handle stays pending until `Commit()` and is dropped by `Rollback()`; other
  handles never see pending writes;
* `Begin()`, `Commit()` and `Rollback()` themselves do not fail; `Rollback()`
  on the shared handle, which is no transaction, rolls nothing back;
* a read into one record reports record-not-found when no row matches, a read
  into a slice does not; a read whose destination is a slice handed over by
  value (not by pointer) panics in the ORM before the statement is issued;
* `Save` is insert-or-overwrite by the key of its record (for a file, its
  identifier: every row carrying it is overwritten),
  `Assign(..).FirstOrCreate(..)` is find-or-create by token value, `Delete`
  removes the rows matching its condition or the key of its record;
* the store refuses an upload row whose id is taken and a file row whose id
  is taken within the same upload; it holds no key on the file id alone.
-/

set_option linter.dupNamespace false

namespace Plik

/-! ## Errors -/

/-- Errors reported by the relational engine through the ORM. -/
inductive DBError
  | recordNotFound
  | invalidTransaction
  | duplicateKey
  | failure (code : Nat)
  deriving DecidableEq, Repr

/-- Go `error` values returned by the backend: a warning built by the logger
(`log.EWarning`), a logger warning formatted around a store error
(`err = log.EWarningf(..., err)`), or the store error returned as it is. -/
inductive Err
  | warning (msg : String)
  | wrapped (msg : String) (cause : DBError)
  | store (e : DBError)
  deriving DecidableEq, Repr

/-- Result of a call that may end in a Go run-time panic (nil pointer
dereference) instead of returning. -/
inductive Outcome (α : Type)
  | returned (a : α)
  | panicked
  deriving DecidableEq, Repr

/-! ## Domain objects (package `common`) and persisted rows -/

/-- Modelled from the spec: `common.File` is declared outside this file.  A
File has an identifier plus file attributes (one attribute, `Name`, stands for
them). -/
structure File where
  ID : String
  Name : String
  deriving DecidableEq, Repr

/-- Modelled from the spec: `common.Upload` is declared outside this file.
Identifier, creation timestamp (`uploadDate`, seconds), time-to-live (seconds,
0 = infinite), owning user id, access token, and the mapping from file id to
File (a Go map, held as an association list in iteration order). -/
structure Upload where
  ID : String
  Creation : Int
  TTL : Int
  User : String
  Token : String
  Files : List (String × File)
  deriving DecidableEq, Repr

/-- Modelled from the spec: `common.Token` is declared outside this file.  A
token value plus token attributes (one attribute, `Comment`, stands for them). -/
structure Token where
  Token : String
  Comment : String
  deriving DecidableEq, Repr

/-- Modelled from the spec: `common.User` is declared outside this file.  An
identifier, user attributes (`Login` stands for them) and the owned tokens. -/
structure User where
  ID : String
  Login : String
  Tokens : List Token
  deriving DecidableEq, Repr

/-- Modelled from the spec: `common.NewUpload()` is declared outside this
file; it yields a zero-valued Upload with an empty (non-nil) Files map. -/
def NewUpload : Upload :=
  { ID := "", Creation := 0, TTL := 0, User := "", Token := "", Files := [] }

/-- A row of table `uploads`: the scalar columns of an Upload. -/
structure UploadRow where
  ID : String
  Creation : Int
  TTL : Int
  User : String
  Token : String
  deriving DecidableEq, Repr

/-- `SQLFile`: a `common.File` plus the `uploadId` column. -/
structure SQLFile where
  File : File
  UploadID : String
  deriving DecidableEq, Repr

/-- `SQLToken`: a `common.Token` plus the `userId` column. -/
structure SQLToken where
  Token : Token
  UserID : String
  deriving DecidableEq, Repr

/-- A row of table `users`: the scalar columns of a User. -/
structure UserRow where
  ID : String
  Login : String
  deriving DecidableEq, Repr

/-- The columns the ORM writes for an Upload. -/
def Upload.toRow (u : Upload) : UploadRow :=
  { ID := u.ID, Creation := u.Creation, TTL := u.TTL, User := u.User, Token := u.Token }

/-- Scanning an `uploads` row into an Upload value keeps its Files map. -/
def UploadRow.fill (r : UploadRow) (u : Upload) : Upload :=
  { u with ID := r.ID, Creation := r.Creation, TTL := r.TTL, User := r.User, Token := r.Token }

/-- The columns the ORM writes for a User. -/
def User.toRow (u : User) : UserRow :=
  { ID := u.ID, Login := u.Login }

/-- Scanning a `users` row into a User value keeps its Tokens. -/
def UserRow.fill (r : UserRow) (u : User) : User :=
  { u with ID := r.ID, Login := r.Login }

/-- Go map assignment `m[k] = v` on an association list. -/
def mapSet (m : List (String × File)) (k : String) (v : File) : List (String × File) :=
  if m.any (fun e => e.1 == k) then m.map (fun e => if e.1 == k then (k, v) else e)
  else m ++ [(k, v)]

/-! ## The relational store -/

/-- The four tables of the persisted schema. -/
structure Tables where
  uploads : List UploadRow
  files : List SQLFile
  users : List UserRow
  usersTokens : List SQLToken
  deriving DecidableEq, Repr

/-- Insert-or-overwrite keyed by `key`: every row with the key of `r` is
overwritten by `r`; when there is none, `r` is appended. -/
def upsert {α : Type} (key : α → String) (r : α) (rows : List α) : List α :=
  if rows.any (fun x => key x == key r) then rows.map (fun x => if key x == key r then r else x)
  else rows ++ [r]

/-- The "assign, then find-or-create" update of an existing token row: the
row keeps its fields except those the assigned value sets (non-zero ones). -/
def assignToken (new old : SQLToken) : SQLToken :=
  { Token := { Token := new.Token.Token,
               Comment := if new.Token.Comment = "" then old.Token.Comment else new.Token.Comment },
    UserID := if new.UserID = "" then old.UserID else new.UserID }

/-- Find-or-create keyed by token value with assigned attributes. -/
def assignOrCreate (r : SQLToken) (rows : List SQLToken) : List SQLToken :=
  if rows.any (fun x => x.Token.Token == r.Token.Token) then
    rows.map (fun x => if x.Token.Token == r.Token.Token then assignToken r x else x)
  else rows ++ [r]

/-- The write statements the backend issues. -/
inductive Write
  | insertUpload (r : UploadRow)
  | insertFile (r : SQLFile)
  | saveFile (r : SQLFile)
  | deleteFilesOf (uploadId : String)
  | deleteUpload (id : String)
  | saveUser (r : UserRow)
  | assignOrCreateToken (r : SQLToken)
  | deleteTokensOf (userId : String)
  | deleteUser (id : String)
  deriving DecidableEq, Repr

/-- Key-uniqueness violations: an insert whose key is already present is
refused by the store.  Upload rows are keyed by id; no two file rows share an
identifier within the same upload. -/
def Write.violation (t : Tables) : Write → Option DBError
  | .insertUpload r => if t.uploads.any (fun x => x.ID == r.ID) then some .duplicateKey else none
  | .insertFile r =>
    if t.files.any (fun x => x.UploadID == r.UploadID && x.File.ID == r.File.ID) then
      some .duplicateKey
    else none
  | _ => none

/-- Effect of an accepted write on the tables. -/
def Tables.apply (t : Tables) : Write → Tables
  | .insertUpload r => { t with uploads := t.uploads ++ [r] }
  | .insertFile r => { t with files := t.files ++ [r] }
  | .saveFile r => { t with files := upsert (fun x => x.File.ID) r t.files }
  | .deleteFilesOf uid => { t with files := t.files.filter (fun x => !(x.UploadID == uid)) }
  | .deleteUpload id => { t with uploads := t.uploads.filter (fun x => !(x.ID == id)) }
  | .saveUser r => { t with users := upsert (fun x => x.ID) r t.users }
  | .assignOrCreateToken r => { t with usersTokens := assignOrCreate r t.usersTokens }
  | .deleteTokensOf uid => { t with usersTokens := t.usersTokens.filter (fun x => !(x.UserID == uid)) }
  | .deleteUser id => { t with users := t.users.filter (fun x => !(x.ID == id)) }

/-- A database handle: the shared handle `smb.db`, or the handle returned by
`Begin()` for the transaction at that position of the open list. -/
inductive Handle
  | db
  | tx (n : Nat)
  deriving DecidableEq, Repr

/-- Statements as they reach the store, in order. -/
inductive Call
  | begin
  | commit (h : Handle)
  | rollback (h : Handle)
  | write (h : Handle) (w : Write)
  | writeNil (h : Handle) (table : String)
  | query (h : Handle) (table : String)
  deriving DecidableEq, Repr

/-- The store: committed tables, the pending writes of every open
transaction, and the statements received so far. -/
structure DB where
  committed : Tables
  txs : List (List Write)
  trace : List Call
  deriving DecidableEq, Repr

/-- Append a statement to the trace. -/
def DB.logged (s : DB) (c : Call) : DB :=
  { s with trace := s.trace ++ [c] }

/-- What a handle sees: the committed tables, and for a transaction its own
pending writes on top of them. -/
def DB.view (s : DB) : Handle → Tables
  | .db => s.committed
  | .tx n => (s.txs.getD n []).foldl Tables.apply s.committed

/-- `Begin()`: opens a transaction and returns its handle. -/
def DB.begin (s : DB) : DB × Handle :=
  ({ s with txs := s.txs ++ [[]], trace := s.trace ++ [.begin] }, .tx s.txs.length)

/-- `Commit()`: the pending writes of the transaction reach the committed
tables and the transaction is closed.  On a handle that is not an open
transaction nothing happens. -/
def DB.commit (s : DB) (h : Handle) : DB :=
  match h with
  | .db => s.logged (.commit .db)
  | .tx n =>
    if n < s.txs.length then
      { committed := s.view (.tx n), txs := s.txs.eraseIdx n, trace := s.trace ++ [.commit (.tx n)] }
    else s.logged (.commit (.tx n))

/-- `Rollback()`: the pending writes of the transaction are dropped and the
transaction is closed.  On the shared handle, which is not a transaction, the
ORM records an invalid-transaction error on the returned handle and nothing
is rolled back. -/
def DB.rollback (s : DB) (h : Handle) : DB :=
  match h with
  | .db => s.logged (.rollback .db)
  | .tx n => { s with txs := s.txs.eraseIdx n, trace := s.trace ++ [.rollback (.tx n)] }

/-- A write statement issued on a handle.  `fault` is the failure the engine
reports for it, if any; a refused or failed statement changes no row.  On the
shared handle the write is committed at once; on a transaction it stays
pending. -/
def DB.exec (s : DB) (fault : Option DBError) (h : Handle) (w : Write) : DB × Option DBError :=
  let s1 := s.logged (.write h w)
  match fault with
  | some e => (s1, some e)
  | none =>
    match w.violation (s.view h) with
    | some e => (s1, some e)
    | none =>
      match h with
      | .db => ({ s1 with committed := s.committed.apply w }, none)
      | .tx n =>
        if n < s.txs.length then ({ s1 with txs := s.txs.set n (s.txs.getD n [] ++ [w]) }, none)
        else (s1, some .invalidTransaction)

/-- A single-row read (`First`, `Find` into one record): the first matching
row, and record-not-found when no row matches. -/
def selectOne {α : Type} (fault : Option DBError) (rows : List α) (p : α → Bool) : Except DBError α :=
  match fault with
  | some e => .error e
  | none =>
    match rows.find? p with
    | some r => .ok r
    | none => .error .recordNotFound

/-- A multi-row read (`Find` into a slice, `Pluck`): all matching rows; no
match is an empty answer, not an error. -/
def selectAll {α : Type} (fault : Option DBError) (rows : List α) (p : α → Bool) :
    Except DBError (List α) :=
  match fault with
  | some e => .error e
  | none => .ok (rows.filter p)

/-- A read whose destination is a slice handed over by value, as in
`Find(user.Tokens, ...)`: the ORM resets its destination before the statement
is issued, and on a value that is not addressable that is a run-time panic.
Nothing reaches the engine and no row is read, whatever the table holds. -/
def selectIntoValue {α : Type} (_fault : Option DBError) (_rows : List α) (_p : α → Bool) :
    Outcome (Except DBError (List α)) :=
  .panicked

/-- A failure schedule for one call: the failure reported for the statement
with that index, counted from 0 in the order the call issues them. -/
abbrev Faults := Nat → Option DBError

/-- The schedule under which the store answers every statement. -/
def noFault : Faults := fun _ => none

/-! ## The backend methods -/

/-- The loop of `Create` over `upload.Files`: one insert into `files` per
entry, stamped with the upload id, on the transaction handle; stops at the
first failure.  Statement `i` is the next index of the failure schedule. -/
def Create.files (uploadID : String) (tx : Handle) (flt : Faults) :
    DB → Nat → List (String × File) → DB × Option DBError
  | s, _, [] => (s, none)
  | s, i, (_, file) :: rest =>
    match s.exec (flt i) tx (.insertFile { File := file, UploadID := uploadID }) with
    | (s1, some e) => (s1, some e)
    | (s1, none) => Create.files uploadID tx flt s1 (i + 1) rest

/-- `MetadataBackend.Create`.  Statement 0 is the upload insert, statement
`j + 1` the insert of the `j`-th file.  On a failed insert the code calls
`smb.db.Rollback()`, on the shared handle. -/
def Create (s : DB) (flt : Faults) : Option Upload → DB × Option Err
  | none => (s, some (.warning "Unable to save upload : Missing upload"))
  | some upload =>
    let (s0, tx) := s.begin
    match s0.exec (flt 0) tx (.insertUpload upload.toRow) with
    | (s1, some e) => (s1.rollback .db, some (.store e))
    | (s1, none) =>
      match Create.files upload.ID tx flt s1 1 upload.Files with
      | (s2, some e) => (s2.rollback .db, some (.store e))
      | (s2, none) => (s2.commit tx, none)

/-- `MetadataBackend.Get`.  Statement 0 reads the upload row, statement 1 the
file rows. -/
def Get (s : DB) (flt : Faults) (id : String) : DB × Option Upload × Option Err :=
  if id = "" then (s, none, some (.warning "Unable to get upload : Missing upload id"))
  else
    let s1 := s.logged (.query .db "uploads")
    match selectOne (flt 0) (s1.view .db).uploads (fun r => r.ID == id) with
    | .error e => (s1, some NewUpload, some (.store e))
    | .ok row =>
      let upload := row.fill NewUpload
      let s2 := s1.logged (.query .db "files")
      match selectAll (flt 1) (s2.view .db).files (fun f => f.UploadID == id) with
      | .error e => (s2, some upload, some (.store e))
      | .ok files =>
        (s2, some (files.foldl (fun u f => { u with Files := mapSet u.Files f.File.ID f.File }) upload),
          none)

/-- `MetadataBackend.AddOrUpdateFile`.  Statement 0 is the save. -/
def AddOrUpdateFile (s : DB) (flt : Faults) : Option Upload → Option File → DB × Option Err
  | none, _ => (s, some (.warning "Unable to add file : Missing upload"))
  | some _, none => (s, some (.warning "Unable to add file : Missing file"))
  | some upload, some file =>
    match s.exec (flt 0) .db (.saveFile { File := file, UploadID := upload.ID }) with
    | (s1, some e) => (s1, some (.store e))
    | (s1, none) => (s1, none)

/-- `MetadataBackend.RemoveFile`: validates its arguments and returns. -/
def RemoveFile (s : DB) : Option Upload → Option File → DB × Option Err
  | none, _ => (s, some (.warning "Unable to remove file : Missing upload"))
  | some _, none => (s, some (.warning "Unable to remove file : Missing file"))
  | some _, some _ => (s, none)

/-- `MetadataBackend.Remove`.  Statement 0 deletes the file rows of the
upload, statement 1 the upload row. -/
def Remove (s : DB) (flt : Faults) : Option Upload → DB × Option Err
  | none => (s, some (.warning "Unable to remove upload : Missing upload"))
  | some upload =>
    match s.exec (flt 0) .db (.deleteFilesOf upload.ID) with
    | (s1, some e) => (s1, some (.wrapped "Unable to delete upload files : %s" e))
    | (s1, none) =>
      match s1.exec (flt 1) .db (.deleteUpload upload.ID) with
      | (s2, some e) => (s2, some (.wrapped "Unable to delete upload : %s" e))
      | (s2, none) => (s2, none)

/-- The row filter of the expiry scan, `ttl > 0 AND now > uploadDate+ttl`. -/
def expired (now : Int) (r : UploadRow) : Bool :=
  decide (r.TTL > 0) && decide (now > r.Creation + r.TTL)

/-- `MetadataBackend.GetUploadsToRemove`, with `now` for
`int(time.Now().Unix())`.  Statement 0 is the scan; `ids` starts as an empty
list and stays so when the scan fails. -/
def GetUploadsToRemove (s : DB) (flt : Faults) (now : Int) : DB × List String × Option Err :=
  let s1 := s.logged (.query .db "uploads")
  match selectAll (flt 0) (s1.view .db).uploads (expired now) with
  | .error e => (s1, [], some (.wrapped "Unable to get uploads to remove : %s" e))
  | .ok rows => (s1, rows.map (fun r => r.ID), none)

/-- The loop of `SaveUser` over `user.Tokens`: one assign-and-find-or-create
per token on the transaction handle; stops at the first failure. -/
def SaveUser.tokens (userID : String) (tx : Handle) (flt : Faults) :
    DB → Nat → List Token → DB × Option DBError
  | s, _, [] => (s, none)
  | s, i, token :: rest =>
    match s.exec (flt i) tx (.assignOrCreateToken { Token := token, UserID := userID }) with
    | (s1, some e) => (s1, some e)
    | (s1, none) => SaveUser.tokens userID tx flt s1 (i + 1) rest

/-- `MetadataBackend.SaveUser`.  Statement 0 saves the user row, statement
`j + 1` the `j`-th token.  The transaction is opened first; the user row is
saved through `smb.db.Table("users")`, the shared handle, the tokens through
`tx`.  No argument is checked: with a nil user the save receives a nil
record, and if the store lets it pass `user.Tokens` dereferences nil. -/
def SaveUser (s : DB) (flt : Faults) : Option User → DB × Outcome (Option Err)
  | none =>
    let (s0, tx) := s.begin
    let s1 := s0.logged (.writeNil .db "users")
    match flt 0 with
    | some e => (s1.rollback tx, .returned (some (.store e)))
    | none => (s1, .panicked)
  | some user =>
    let (s0, tx) := s.begin
    match s0.exec (flt 0) .db (.saveUser user.toRow) with
    | (s1, some e) => (s1.rollback tx, .returned (some (.store e)))
    | (s1, none) =>
      match SaveUser.tokens user.ID tx flt s1 1 user.Tokens with
      | (s2, some e) => (s2.rollback tx, .returned (some (.store e)))
      | (s2, none) => (s2.commit tx, .returned none)

/-- Second read of the id branch of `GetUser`: the token rows whose `userId`
equals the id of the user value at hand.  Record-not-found is let through to
the final `return`, which hands back the user and the last `err`. -/
def GetUser.tokens (s1 : DB) (flt : Faults) (user : User) : DB × Option User × Option Err :=
  let s2 := s1.logged (.query .db "usersTokens")
  match selectAll (flt 1) (s2.view .db).usersTokens (fun t => t.UserID == user.ID) with
  | .error e =>
    if e = .recordNotFound then (s2, some user, some (.store e)) else (s2, none, some (.store e))
  | .ok rows => (s2, some { user with Tokens := rows.map (fun t => t.Token) }, none)

/-- `MetadataBackend.GetUser`.  `numEq n id` is how the store compares the
text column `id` with an integer argument `n`.

With a non-empty id, statement 0 reads the user row and statement 1 the token
rows owned by `user.ID`; record-not-found is let through on both.  With an
empty id and a non-empty token, the first read is
`Find(user.Tokens, "token = ?", token)`, whose destination is the slice
`user.Tokens` handed over by value: the call ends there in a panic.  The
lines after it are kept as written: record-not-found answered with nil, nil,
then the read of the user row whose id equals the local `userId`, declared
`var userId int` and never assigned. -/
def GetUser (numEq : Int → String → Bool) (s : DB) (flt : Faults) (id token : String) :
    DB × Outcome (Option User × Option Err) :=
  if id = "" ∧ token = "" then
    (s, .returned (none, some (.warning "Unable to get user : Missing user id or token")))
  else
    let user : User := { ID := "", Login := "", Tokens := [] }
    if id ≠ "" then
      let s1 := s.logged (.query .db "users")
      match selectOne (flt 0) (s1.view .db).users (fun r => r.ID == id) with
      | .error e =>
        if e = .recordNotFound then
          match GetUser.tokens s1 flt user with
          | (s2, r) => (s2, .returned r)
        else (s1, .returned (none, some (.store e)))
      | .ok row =>
        match GetUser.tokens s1 flt (row.fill user) with
        | (s2, r) => (s2, .returned r)
    else
      let userId : Int := 0
      match selectIntoValue (flt 0) (s.view .db).usersTokens
          (fun t => t.Token.Token == token) with
      | .panicked => (s, .panicked)
      | .returned (.error e) =>
        let s1 := s.logged (.query .db "usersTokens")
        if e = .recordNotFound then (s1, .returned (none, none))
        else (s1, .returned (none, some (.store e)))
      | .returned (.ok _) =>
        let s1 := s.logged (.query .db "usersTokens")
        let s2 := s1.logged (.query .db "users")
        match selectOne (flt 1) (s2.view .db).users (fun r => numEq userId r.ID) with
        | .error e =>
          if e = .recordNotFound then (s2, .returned (none, none))
          else (s2, .returned (none, some (.store e)))
        | .ok row => (s2, .returned (some (row.fill user), none))

/-- `MetadataBackend.RemoveUser`.  Statement 0 deletes the token rows owned
by `user.ID`, statement 1 the user row.  No argument is checked: with a nil
user, evaluating `user.ID` for the first statement dereferences nil. -/
def RemoveUser (s : DB) (flt : Faults) : Option User → DB × Outcome (Option Err)
  | none => (s, .panicked)
  | some user =>
    match s.exec (flt 0) .db (.deleteTokensOf user.ID) with
    | (s1, some e) => (s1, .returned (some (.store e)))
    | (s1, none) =>
      match s1.exec (flt 1) .db (.deleteUser user.ID) with
      | (s2, some e) => (s2, .returned (some (.store e)))
      | (s2, none) => (s2, .returned none)

/-- `MetadataBackend.GetUserUploads`.  Statement 0 is the scan of `uploads`
by owner, and by token value when a token is given; record-not-found is
answered with the (empty) list and no error. -/
def GetUserUploads (s : DB) (flt : Faults) : Option User → Option Token → DB × List String × Option Err
  | none, _ => (s, [], some (.warning "Unable to get user uploads : Missing user"))
  | some user, token =>
    let s1 := s.logged (.query .db "uploads")
    let p : UploadRow → Bool := match token with
      | some t => fun r => r.User == user.ID && r.Token == t.Token
      | none => fun r => r.User == user.ID
    match selectAll (flt 0) (s1.view .db).uploads p with
    | .error .recordNotFound => (s1, [], none)
    | .error e => (s1, [], some (.store e))
    | .ok rows => (s1, rows.map (fun r => r.ID), none)

/-! ## Store invariants and sample states -/

/-- Key uniqueness of the upload rows (`uploads.id` is the primary key). -/
def UploadKeysUnique (t : Tables) : Prop :=
  (t.uploads.map (fun r => r.ID)).Nodup

/-- At most one file row of the table carries the file identifier `id`. -/
def AtMostOneFileRow (t : Tables) (id : String) : Prop :=
  (t.files.filter (fun x => x.File.ID == id)).length ≤ 1

/-- Key uniqueness of the token rows (a token row is keyed by its value). -/
def TokenKeysUnique (t : Tables) : Prop :=
  (t.usersTokens.map (fun r => r.Token.Token)).Nodup

/-- Referential integrity of `files.uploadId`: it names an existing upload
row. -/
def FilesReferToUploads (t : Tables) : Prop :=
  ∀ f ∈ t.files, ∃ u ∈ t.uploads, u.ID = f.UploadID

/-- The store with no row and no open transaction. -/
def emptyDB : DB :=
  { committed := { uploads := [], files := [], users := [], usersTokens := [] }, txs := [], trace := [] }

/-- The schedule under which only statement `i` fails, with engine code 1. -/
def failAt (i : Nat) : Faults :=
  fun j => if j = i then some (.failure 1) else none

/-- Upload `u1`, created at 100 with a ttl of 10, holding file `f1`. -/
def sampleUpload : Upload :=
  { ID := "u1", Creation := 100, TTL := 10, User := "", Token := "",
    Files := [("f1", { ID := "f1", Name := "a" })] }

/-- An upload value whose identifier is empty. -/
def blankUpload : Upload :=
  { ID := "", Creation := 0, TTL := 0, User := "", Token := "", Files := [] }

/-- User `alice` with one token `t1`. -/
def sampleUser : User :=
  { ID := "alice", Login := "al", Tokens := [{ Token := "t1", Comment := "" }] }

/-- A store holding upload `u1` with its file `f1`. -/
def oneUploadDB : DB :=
  { committed :=
      { uploads := [{ ID := "u1", Creation := 100, TTL := 10, User := "", Token := "" }],
        files := [{ File := { ID := "f1", Name := "a" }, UploadID := "u1" }],
        users := [], usersTokens := [] },
    txs := [], trace := [] }

/-- Upload `u2`, holding a file whose identifier is `f1` as well. -/
def secondUpload : Upload :=
  { ID := "u2", Creation := 200, TTL := 0, User := "", Token := "",
    Files := [("f1", { ID := "f1", Name := "z" })] }

/-- A store holding uploads `u1` and `u2`, each with a file row of identifier
`f1`: the committed tables after `Create(u1)` and `Create(u2)` on the empty
store. -/
def sharedFileDB : DB :=
  { committed :=
      { uploads := [{ ID := "u1", Creation := 100, TTL := 10, User := "", Token := "" },
                    { ID := "u2", Creation := 200, TTL := 0, User := "", Token := "" }],
        files := [{ File := { ID := "f1", Name := "a" }, UploadID := "u1" },
                  { File := { ID := "f1", Name := "z" }, UploadID := "u2" }],
        users := [], usersTokens := [] },
    txs := [], trace := [] }

/-- A store with users `alice` and `bob`; token `t1` belongs to `alice` and
token `t2` to `bob`. -/
def twoUsersDB : DB :=
  { committed :=
      { uploads := [], files := [],
        users := [{ ID := "alice", Login := "al" }, { ID := "bob", Login := "bo" }],
        usersTokens := [{ Token := { Token := "t1", Comment := "" }, UserID := "alice" },
                        { Token := { Token := "t2", Comment := "" }, UserID := "bob" }] },
    txs := [], trace := [] }

/-! ## Theorems -/

/-- C2 (evaluation at the failing input).  Creating upload `u1` with file `f1`
on the empty store, the file insert failing: Create returns that error, its
last statement is a rollback on the shared handle, and the transaction it
opened is still open afterwards, holding the upload row; the store had no open
transaction before.  The same holds when the upload insert itself fails. -/
theorem Create_failed_insert_leaves_transaction_open :
    (Create emptyDB (failAt 1) (some sampleUpload)).2 = some (.store (.failure 1)) ∧
    (Create emptyDB (failAt 1) (some sampleUpload)).1.txs
      = [[.insertUpload sampleUpload.toRow]] ∧
    emptyDB.txs = [] ∧
    (Create emptyDB (failAt 1) (some sampleUpload)).1.trace.getLast? = some (.rollback .db) ∧
    (Create emptyDB (failAt 0) (some sampleUpload)).2 = some (.store (.failure 1)) ∧
    (Create emptyDB (failAt 0) (some sampleUpload)).1.txs = [[]] := by
  decide

/-- C4 (evaluation at the failing inputs).  SaveUser with a nil user opens a
transaction on every store before anything else, and when the store lets the
nil record pass it ends in a panic with that transaction open; RemoveUser
with a nil user panics on every store instead of returning an error. -/
theorem SaveUser_RemoveUser_nil_not_validated :
    (∀ (s : DB) (flt : Faults),
      ((SaveUser s flt none).1.trace.drop s.trace.length).head? = some .begin) ∧
    SaveUser emptyDB noFault none
      = ({ emptyDB with txs := [[]], trace := [.begin, .writeNil .db "users"] }, .panicked) ∧
    (∀ (s : DB) (flt : Faults), (RemoveUser s flt none).2 = .panicked) := by
  refine ⟨?_, by decide, fun _ _ => rfl⟩
  intro s flt
  unfold SaveUser
  cases hf : flt 0 <;>
    simp [DB.begin, DB.logged, DB.rollback, List.append_assoc]

/-- C5 (evaluation at the failing input).  On the store where token `t1`
belongs to `alice` and token `t2` to `bob`, GetUser with an empty id and token
`t1` does not return: its first read hands `user.Tokens` over by value and the
call panics, however the store compares ids, so neither `alice` nor any other
user is returned; the same for `t2`. -/
theorem GetUser_by_token_panics :
    ∀ numEq : Int → String → Bool,
      (GetUser numEq twoUsersDB noFault "" "t1").2 = .panicked ∧
      (GetUser numEq twoUsersDB noFault "" "t2").2 = .panicked ∧
      (∀ u : User, (GetUser numEq twoUsersDB noFault "" "t1").2 ≠ .returned (some u, none)) := by
  intro numEq
  have h1 : (GetUser numEq twoUsersDB noFault "" "t1").2 = .panicked := rfl
  refine ⟨h1, rfl, ?_⟩
  intro u hu
  rw [h1] at hu
  exact Outcome.noConfusion hu

/-- C6 (evaluation at the failing input).  Looking up the unknown id `zed` on
the empty store: the user lookup reports record-not-found, and GetUser returns
a non-nil zero-valued user with a nil error. -/
theorem GetUser_by_id_not_found_returns_zero_user :
    selectOne (noFault 0) emptyDB.committed.users (fun r => r.ID == "zed")
      = .error .recordNotFound ∧
    ∀ numEq : Int → String → Bool,
      (GetUser numEq emptyDB noFault "zed" "").2
        = .returned (some { ID := "", Login := "", Tokens := [] }, none) := by
  refine ⟨rfl, fun numEq => ?_⟩
  rfl

/-- C7 (evaluation at the failing input).  Saving `alice` with token `t1` on
the empty store, the token upsert failing: SaveUser returns the error and
rolls its transaction back, yet the `alice` row is in the committed `users`
table afterwards. -/
theorem SaveUser_failed_token_keeps_user_row :
    (SaveUser emptyDB (failAt 1) (some sampleUser)).2 = .returned (some (.store (.failure 1))) ∧
    (SaveUser emptyDB (failAt 1) (some sampleUser)).1.committed.users
      = [{ ID := "alice", Login := "al" }] ∧
    (SaveUser emptyDB (failAt 1) (some sampleUser)).1.txs = [] ∧
    emptyDB.committed.users = [] := by
  decide

/-- C8 (counterexample).  Removing an upload value whose id is empty succeeds
on the empty store, and the following Get of that id does not report
not-found: it is refused for the missing id. -/
theorem Remove_blank_id_Get_not_notFound :
    (Remove emptyDB noFault (some blankUpload)).2 = none ∧
    (Get (Remove emptyDB noFault (some blankUpload)).1 noFault blankUpload.ID).2.2
      = some (.warning "Unable to get upload : Missing upload id") ∧
    (Get (Remove emptyDB noFault (some blankUpload)).1 noFault blankUpload.ID).2.2
      ≠ some (.store .recordNotFound) := by
  decide

/-- Two rows of a key-unique list with the same key are the same row. -/
theorem eq_of_key_eq {α : Type} (key : α → String) {rows : List α}
    (hnd : (rows.map key).Nodup) {x y : α} (hx : x ∈ rows) (hy : y ∈ rows)
    (hk : key x = key y) : x = y :=
  List.inj_on_of_nodup_map hnd hx hy hk

/-- The ids returned by an answered expiry scan are those of the rows that
pass the filter. -/
theorem GetUploadsToRemove_ids (s : DB) (flt : Faults) (now : Int) (h0 : flt 0 = none) :
    (GetUploadsToRemove s flt now).2.1
      = (s.committed.uploads.filter (expired now)).map (fun r => r.ID) := by
  simp [GetUploadsToRemove, selectAll, h0, DB.view, DB.logged]

/-- A failed expiry scan returns the empty list. -/
theorem GetUploadsToRemove_failed (s : DB) (flt : Faults) (now : Int) (e : DBError)
    (h0 : flt 0 = some e) : (GetUploadsToRemove s flt now).2.1 = [] := by
  simp [GetUploadsToRemove, selectAll, h0]

/-- C1.  Expiry predicate of GetUploadsToRemove: on a store whose upload ids
are unique, an upload row with ttl = 0 is never in the returned id list, and
when the scan is answered an upload row with ttl = T > 0 created at C is in
the returned id list if and only if now > C + T. -/
theorem GetUploadsToRemove_expiry (s : DB) (flt : Faults) (now : Int) (r : UploadRow)
    (hkeys : UploadKeysUnique s.committed) (hr : r ∈ s.committed.uploads) :
    (r.TTL = 0 → r.ID ∉ (GetUploadsToRemove s flt now).2.1) ∧
    (0 < r.TTL → flt 0 = none →
      (r.ID ∈ (GetUploadsToRemove s flt now).2.1 ↔ now > r.Creation + r.TTL)) := by
  have hmem : ∀ h0 : flt 0 = none,
      (r.ID ∈ (GetUploadsToRemove s flt now).2.1 ↔ expired now r = true) := by
    intro h0
    rw [GetUploadsToRemove_ids s flt now h0, List.mem_map]
    constructor
    · rintro ⟨x, hx, hxr⟩
      rw [List.mem_filter] at hx
      have hk : (s.committed.uploads.map (fun r : UploadRow => r.ID)).Nodup := hkeys
      have : x = r := eq_of_key_eq (fun r : UploadRow => r.ID) hk hx.1 hr hxr
      rw [← this]; exact hx.2
    · intro he
      exact ⟨r, List.mem_filter.mpr ⟨hr, he⟩, rfl⟩
  constructor
  · intro httl hin
    cases h0 : flt 0 with
    | some e => rw [GetUploadsToRemove_failed s flt now e h0] at hin; simp at hin
    | none =>
      have := (hmem h0).mp hin
      simp [expired, httl] at this
  · intro hpos h0
    rw [hmem h0]
    simp [expired, hpos]

/-- Witness for C1. -/
theorem GetUploadsToRemove_expiry_witness :
    (0 : Int) < 10 ∧
    ("u1" ∈ (GetUploadsToRemove oneUploadDB noFault 111).2.1 ↔ (111 : Int) > 100 + 10) :=
  ⟨by decide,
   (GetUploadsToRemove_expiry oneUploadDB noFault 111
      { ID := "u1", Creation := 100, TTL := 10, User := "", Token := "" }
      (by unfold UploadKeysUnique; decide) (by decide)).2 (by decide) rfl⟩

/-! ### Writes on the shared handle -/

/-- An accepted write on the shared handle is applied to the committed tables
at once; open transactions are untouched and the statement is traced. -/
theorem exec_db_ok {s s1 : DB} {fault : Option DBError} {w : Write}
    (h : s.exec fault .db w = (s1, none)) :
    s1.committed = s.committed.apply w ∧ s1.txs = s.txs ∧
      s1.trace = s.trace ++ [.write .db w] := by
  unfold DB.exec at h
  cases fault with
  | some e => simp at h
  | none =>
    cases hv : w.violation (s.view .db) with
    | some e => simp [hv] at h
    | none =>
      simp [hv, DB.logged] at h
      subst h
      exact ⟨rfl, rfl, rfl⟩

/-- A write that the engine fails changes no row. -/
theorem exec_fault (s : DB) (e : DBError) (h : Handle) (w : Write) :
    s.exec (some e) h w = (s.logged (.write h w), some e) := by
  simp [DB.exec]

/-! ### Insert-or-overwrite -/

/-- Selecting a key from a list without that key yields nothing. -/
theorem filter_key_absent {α : Type} (key : α → String) (k : String) (rows : List α)
    (habs : ∀ x ∈ rows, key x ≠ k) :
    rows.filter (fun x => key x == k) = [] := by
  induction rows with
  | nil => rfl
  | cons a t ih =>
    have ha : key a ≠ k := habs a (List.mem_cons_self _ _)
    have ht : ∀ x ∈ t, key x ≠ k := fun x hx => habs x (List.mem_cons_of_mem _ hx)
    simp [ha, ih ht]

/-- After overwriting, the rows that carry the key are as many as before and
each of them is the row written. -/
theorem filter_overwrite {α : Type} (key : α → String) (r : α) (rows : List α) :
    (rows.map (fun x => if key x == key r then r else x)).filter (fun x => key x == key r)
      = (rows.filter (fun x => key x == key r)).map (fun _ => r) := by
  induction rows with
  | nil => rfl
  | cons a t ih =>
    by_cases ha : key a = key r
    · simp only [List.map_cons, ha, beq_self_eq_true, if_true, List.filter_cons]
      rw [ih]
    · have hb : (key a == key r) = false := by simpa using ha
      rw [List.map_cons, List.filter_cons, List.filter_cons]
      simp only [hb, Bool.false_eq_true, if_false]
      exact ih

/-- After an insert-or-overwrite on a list in which at most one row carries
the key, exactly one row carries it, and it is the row written. -/
theorem upsert_filter {α : Type} (key : α → String) (r : α) (rows : List α)
    (hone : (rows.filter (fun x => key x == key r)).length ≤ 1) :
    (upsert key r rows).filter (fun x => key x == key r) = [r] := by
  unfold upsert
  by_cases hany : rows.any (fun x => key x == key r) = true
  · rw [if_pos hany, filter_overwrite]
    obtain ⟨x, hx, hk⟩ := List.any_eq_true.mp hany
    have hmem : x ∈ rows.filter (fun x => key x == key r) := List.mem_filter.mpr ⟨hx, hk⟩
    cases hL : rows.filter (fun x => key x == key r) with
    | nil => rw [hL] at hmem; simp at hmem
    | cons a t =>
      rw [hL] at hone
      cases t with
      | nil => rfl
      | cons b t2 => simp at hone
  · rw [if_neg hany]
    have habs : ∀ x ∈ rows, key x ≠ key r := by
      intro x hx hk
      exact hany (List.any_eq_true.mpr ⟨x, hx, by simp [hk]⟩)
    rw [List.filter_append, filter_key_absent key (key r) rows habs]
    simp

/-- A successful AddOrUpdateFile has run the save, keyed by the file id, on
the committed file rows. -/
theorem AddOrUpdateFile_ok {a b : DB} {g : Faults} {upload : Upload} {f : File}
    (h : AddOrUpdateFile a g (some upload) (some f) = (b, none)) :
    b.committed.files
      = upsert (fun x : SQLFile => x.File.ID) { File := f, UploadID := upload.ID }
          a.committed.files := by
  unfold AddOrUpdateFile at h
  cases hx : a.exec (g 0) .db (.saveFile { File := f, UploadID := upload.ID }) with
  | mk b1 r =>
    cases r with
    | some e => simp [hx] at h
    | none =>
      simp [hx] at h
      subst h
      rw [(exec_db_ok hx).1]
      rfl

/-- C10 (counterexample).  On the store where uploads `u1` and `u2` each hold
a file row of identifier `f1` (the committed tables after Create(u1) and
Create(u2) on the empty store), AddOrUpdateFile(u1, f1) called twice, both
calls returning no error, leaves two file rows for `f1`, not one. -/
theorem AddOrUpdateFile_twice_two_rows :
    (Create (Create emptyDB noFault (some sampleUpload)).1 noFault (some secondUpload)).1.committed
      = sharedFileDB.committed ∧
    (AddOrUpdateFile sharedFileDB noFault (some sampleUpload)
        (some { ID := "f1", Name := "b" })).2 = none ∧
    (AddOrUpdateFile (AddOrUpdateFile sharedFileDB noFault (some sampleUpload)
        (some { ID := "f1", Name := "b" })).1 noFault (some sampleUpload)
        (some { ID := "f1", Name := "c" })).2 = none ∧
    (AddOrUpdateFile (AddOrUpdateFile sharedFileDB noFault (some sampleUpload)
        (some { ID := "f1", Name := "b" })).1 noFault (some sampleUpload)
        (some { ID := "f1", Name := "c" })).1.committed.files.filter
          (fun x => x.File.ID == "f1")
      = [{ File := { ID := "f1", Name := "c" }, UploadID := "u1" },
         { File := { ID := "f1", Name := "c" }, UploadID := "u1" }] := by
  decide

/-- C10 (amended).  Idempotent upsert of AddOrUpdateFile: on a store in which
at most one file row carries the file id, for a non-nil upload and two files
with that same file id, after AddOrUpdateFile(upload, f1) and then
AddOrUpdateFile(upload, f2), both returning no error, exactly one file row
carries that id, and it is f2 stamped with upload.ID. -/
theorem AddOrUpdateFile_twice (s s1 s2 : DB) (g1 g2 : Faults) (upload : Upload) (f1 f2 : File)
    (hone : AtMostOneFileRow s.committed f1.ID) (hid : f1.ID = f2.ID)
    (h1 : AddOrUpdateFile s g1 (some upload) (some f1) = (s1, none))
    (h2 : AddOrUpdateFile s1 g2 (some upload) (some f2) = (s2, none)) :
    s2.committed.files.filter (fun x => x.File.ID == f1.ID)
      = [{ File := f2, UploadID := upload.ID }] := by
  have hfirst : s1.committed.files.filter (fun x => x.File.ID == f1.ID)
      = [{ File := f1, UploadID := upload.ID }] := by
    rw [AddOrUpdateFile_ok h1]
    exact upsert_filter (fun x : SQLFile => x.File.ID) { File := f1, UploadID := upload.ID } _ hone
  have hone1 : (s1.committed.files.filter (fun x => x.File.ID == f2.ID)).length ≤ 1 := by
    rw [← hid, hfirst]
    simp
  rw [AddOrUpdateFile_ok h2, hid]
  exact upsert_filter (fun x : SQLFile => x.File.ID) { File := f2, UploadID := upload.ID } _ hone1

/-- Witness for C10 (amended). -/
theorem AddOrUpdateFile_twice_witness :
    ((AddOrUpdateFile (AddOrUpdateFile oneUploadDB noFault (some sampleUpload)
          (some { ID := "f1", Name := "b" })).1 noFault (some sampleUpload)
          (some { ID := "f1", Name := "c" })).1.committed.files.filter
        (fun x => x.File.ID == "f1"))
      = [{ File := { ID := "f1", Name := "c" }, UploadID := "u1" }] :=
  AddOrUpdateFile_twice oneUploadDB _ _ noFault noFault sampleUpload
    { ID := "f1", Name := "b" } { ID := "f1", Name := "c" }
    (by unfold AtMostOneFileRow; decide) rfl rfl rfl

/-! ### Remove and RemoveUser -/

/-- A successful Remove has run both deletes on the committed tables. -/
theorem Remove_ok {s s2 : DB} {flt : Faults} {upload : Upload}
    (h : Remove s flt (some upload) = (s2, none)) :
    s2.committed
      = (s.committed.apply (.deleteFilesOf upload.ID)).apply (.deleteUpload upload.ID) := by
  unfold Remove at h
  cases hx : s.exec (flt 0) .db (.deleteFilesOf upload.ID) with
  | mk a r =>
    cases r with
    | some e => simp [hx] at h
    | none =>
      cases hy : a.exec (flt 1) .db (.deleteUpload upload.ID) with
      | mk b r2 =>
        cases r2 with
        | some e => simp [hx, hy] at h
        | none =>
          simp [hx, hy] at h
          subst h
          rw [(exec_db_ok hy).1, (exec_db_ok hx).1]

/-- C8 (amended).  Orphan-avoidance of Remove for an upload with a non-empty
id: when Remove(upload) returns no error, a following Get(upload.ID) whose
lookup is answered reports record-not-found, and no file row whose
owning-upload reference equals upload.ID remains; and when the file deletion
fails, Remove returns an error and the committed tables, the upload row among
them, are left as they were. -/
theorem Remove_orphan_avoidance (s : DB) (flt : Faults) (upload : Upload) :
    (upload.ID ≠ "" → (Remove s flt (some upload)).2 = none →
      (Get (Remove s flt (some upload)).1 noFault upload.ID).2
          = (some NewUpload, some (.store .recordNotFound)) ∧
      ∀ f ∈ (Remove s flt (some upload)).1.committed.files, f.UploadID ≠ upload.ID) ∧
    (∀ e, flt 0 = some e →
      (Remove s flt (some upload)).2 = some (.wrapped "Unable to delete upload files : %s" e) ∧
      (Remove s flt (some upload)).1.committed = s.committed) := by
  constructor
  · intro hid hok
    have hc : (Remove s flt (some upload)).1.committed
        = (s.committed.apply (.deleteFilesOf upload.ID)).apply (.deleteUpload upload.ID) :=
      Remove_ok (Prod.ext rfl hok)
    constructor
    · have hnone : ((Remove s flt (some upload)).1.committed.uploads.find?
          (fun r => r.ID == upload.ID)) = none := by
        rw [hc]
        simp [Tables.apply, List.find?_eq_none]
      simp [Get, hid, selectOne, noFault, DB.view, DB.logged, hnone]
    · intro f hf
      rw [hc] at hf
      simp [Tables.apply, List.mem_filter] at hf
      exact hf.2
  · intro e he
    simp [Remove, he, exec_fault, DB.logged]

/-- Witness for C8 (amended). -/
theorem Remove_orphan_avoidance_witness :
    ((Get (Remove oneUploadDB noFault (some sampleUpload)).1 noFault "u1").2
        = (some NewUpload, some (.store .recordNotFound)) ∧
      ∀ f ∈ (Remove oneUploadDB noFault (some sampleUpload)).1.committed.files,
        f.UploadID ≠ "u1") ∧
    ((Remove oneUploadDB (failAt 0) (some sampleUpload)).2
        = some (.wrapped "Unable to delete upload files : %s" (.failure 1)) ∧
      (Remove oneUploadDB (failAt 0) (some sampleUpload)).1.committed = oneUploadDB.committed) :=
  ⟨(Remove_orphan_avoidance oneUploadDB noFault sampleUpload).1 (by decide) (by decide),
   (Remove_orphan_avoidance oneUploadDB (failAt 0) sampleUpload).2 (.failure 1) rfl⟩

/-- A RemoveUser that returns no error was given a user and has run both
deletes, tokens first, on the committed tables. -/
theorem RemoveUser_ok {s s2 : DB} {flt : Faults} {u : Option User}
    (h : RemoveUser s flt u = (s2, .returned none)) :
    ∃ user, u = some user ∧
      s2.committed
        = (s.committed.apply (.deleteTokensOf user.ID)).apply (.deleteUser user.ID) ∧
      s2.trace = s.trace ++ [.write .db (.deleteTokensOf user.ID), .write .db (.deleteUser user.ID)] := by
  cases u with
  | none => simp [RemoveUser] at h
  | some user =>
    refine ⟨user, rfl, ?_⟩
    unfold RemoveUser at h
    cases hx : s.exec (flt 0) .db (.deleteTokensOf user.ID) with
    | mk a r =>
      cases r with
      | some e => simp [hx] at h
      | none =>
        cases hy : a.exec (flt 1) .db (.deleteUser user.ID) with
        | mk b r2 =>
          cases r2 with
          | some e => simp [hx, hy] at h
          | none =>
            simp [hx, hy] at h
            subst h
            rw [(exec_db_ok hy).1, (exec_db_ok hx).1, (exec_db_ok hy).2.2, (exec_db_ok hx).2.2]
            simp

/-- C9.  Cascade delete of RemoveUser: on a store whose token values are
unique, when RemoveUser(user) returns no error the user was non-nil, no
usersTokens row with owning-user reference user.ID remains, a lookup by the
value of any former token of the user reports record-not-found, the users row
with id user.ID is gone, and the statements issued were the deletion of the
token rows followed by the deletion of the user row. -/
theorem RemoveUser_cascade (s s2 : DB) (flt : Faults) (u : Option User)
    (hkeys : TokenKeysUnique s.committed)
    (h : RemoveUser s flt u = (s2, .returned none)) :
    ∃ user, u = some user ∧
      (∀ t ∈ s2.committed.usersTokens, t.UserID ≠ user.ID) ∧
      (∀ t ∈ s.committed.usersTokens, t.UserID = user.ID →
        selectOne (noFault 0) s2.committed.usersTokens (fun x => x.Token.Token == t.Token.Token)
          = .error .recordNotFound) ∧
      (∀ r ∈ s2.committed.users, r.ID ≠ user.ID) ∧
      s2.trace = s.trace ++ [.write .db (.deleteTokensOf user.ID), .write .db (.deleteUser user.ID)] := by
  obtain ⟨user, hu, hc, htr⟩ := RemoveUser_ok h
  refine ⟨user, hu, ?_, ?_, ?_, htr⟩
  · intro t ht
    rw [hc] at ht
    simp [Tables.apply, List.mem_filter] at ht
    exact ht.2
  · intro t ht hown
    have hk : (s.committed.usersTokens.map (fun r : SQLToken => r.Token.Token)).Nodup := hkeys
    have hnone : s2.committed.usersTokens.find? (fun x => x.Token.Token == t.Token.Token)
        = none := by
      rw [hc, List.find?_eq_none]
      intro x hx hxt
      simp [Tables.apply, List.mem_filter] at hx
      have hxe : x = t :=
        eq_of_key_eq (fun r : SQLToken => r.Token.Token) hk hx.1 ht (by simpa using hxt)
      exact hx.2 (by rw [hxe]; exact hown)
    simp [selectOne, noFault, hnone]
  · intro r hr
    rw [hc] at hr
    simp [Tables.apply, List.mem_filter] at hr
    exact hr.2

/-- Witness for C9. -/
theorem RemoveUser_cascade_witness :
    ∃ user : User, some sampleUser = some user ∧
      (∀ t ∈ (RemoveUser twoUsersDB noFault (some sampleUser)).1.committed.usersTokens,
        t.UserID ≠ user.ID) ∧
      (∀ t ∈ twoUsersDB.committed.usersTokens, t.UserID = user.ID →
        selectOne (noFault 0)
          (RemoveUser twoUsersDB noFault (some sampleUser)).1.committed.usersTokens
          (fun x => x.Token.Token == t.Token.Token) = .error .recordNotFound) ∧
      (∀ r ∈ (RemoveUser twoUsersDB noFault (some sampleUser)).1.committed.users,
        r.ID ≠ user.ID) ∧
      (RemoveUser twoUsersDB noFault (some sampleUser)).1.trace
        = twoUsersDB.trace ++
            [.write .db (.deleteTokensOf user.ID), .write .db (.deleteUser user.ID)] :=
  RemoveUser_cascade twoUsersDB _ noFault (some sampleUser)
    (by unfold TokenKeysUnique; decide) rfl

/-! ### Create followed by Get -/

/-- An accepted write on a transaction handle stays pending: the committed
tables are untouched and the write is appended to that transaction. -/
theorem exec_tx_ok {s s1 : DB} {fault : Option DBError} {n : Nat} {w : Write}
    (h : s.exec fault (.tx n) w = (s1, none)) :
    n < s.txs.length ∧ s1.committed = s.committed ∧ s1.txs.length = s.txs.length ∧
      s1.txs.getD n [] = s.txs.getD n [] ++ [w] := by
  unfold DB.exec at h
  cases fault with
  | some e => simp at h
  | none =>
    cases hv : w.violation (s.view (.tx n)) with
    | some e => simp [hv] at h
    | none =>
      by_cases hn : n < s.txs.length
      · simp [hv, hn, DB.logged] at h
        subst h
        refine ⟨hn, rfl, by simp, ?_⟩
        simp [List.getD_eq_getElem?_getD, List.getElem?_set_self, hn]
      · simp [hv, hn] at h

/-- A file loop of Create that ends without error has appended one pending
insert per entry, in order, to its transaction. -/
theorem Create_files_ok (uid : String) (n : Nat) (flt : Faults) :
    ∀ (fs : List (String × File)) (s s2 : DB) (i : Nat),
      Create.files uid (.tx n) flt s i fs = (s2, none) →
      s2.committed = s.committed ∧ s2.txs.length = s.txs.length ∧
        s2.txs.getD n [] = s.txs.getD n []
          ++ fs.map (fun e => Write.insertFile { File := e.2, UploadID := uid }) := by
  intro fs
  induction fs with
  | nil =>
    intro s s2 i h
    simp [Create.files] at h
    subst h
    simp
  | cons e rest ih =>
    intro s s2 i h
    obtain ⟨k, file⟩ := e
    unfold Create.files at h
    cases hx : s.exec (flt i) (.tx n) (.insertFile { File := file, UploadID := uid }) with
    | mk a r =>
      cases r with
      | some err => simp [hx] at h
      | none =>
        simp only [hx] at h
        obtain ⟨_, hc, hl, hp⟩ := exec_tx_ok hx
        obtain ⟨hc2, hl2, hp2⟩ := ih a s2 (i + 1) h
        refine ⟨hc2.trans hc, hl2.trans hl, ?_⟩
        rw [hp2, hp]
        simp

/-- Applying a run of file inserts appends the rows to table `files`. -/
theorem foldl_insertFile (uid : String) :
    ∀ (fs : List (String × File)) (t : Tables),
      (fs.map (fun e => Write.insertFile { File := e.2, UploadID := uid })).foldl Tables.apply t
        = { t with files := t.files ++ fs.map (fun e => { File := e.2, UploadID := uid }) } := by
  intro fs
  induction fs with
  | nil => intro t; simp
  | cons e rest ih =>
    intro t
    simp only [List.map_cons, List.foldl_cons]
    rw [ih]
    simp [Tables.apply]

/-- A Create that returns no error has committed exactly the upload row and
one file row per entry of the Files mapping, stamped with the upload id. -/
theorem Create_ok {s s2 : DB} {flt : Faults} {upload : Upload}
    (h : Create s flt (some upload) = (s2, none)) :
    s2.committed =
      { s.committed with
        uploads := s.committed.uploads ++ [upload.toRow],
        files := s.committed.files
          ++ upload.Files.map (fun e => { File := e.2, UploadID := upload.ID }) } := by
  unfold Create at h
  simp only [DB.begin] at h
  cases hx : DB.exec { s with txs := s.txs ++ [[]], trace := s.trace ++ [.begin] } (flt 0)
      (.tx s.txs.length) (.insertUpload upload.toRow) with
  | mk a r =>
    cases r with
    | some e => simp [hx] at h
    | none =>
      simp only [hx] at h
      cases hy : Create.files upload.ID (.tx s.txs.length) flt a 1 upload.Files with
      | mk b r2 =>
        cases r2 with
        | some e => simp [hy] at h
        | none =>
          simp only [hy] at h
          obtain ⟨_, hc, hl, hp⟩ := exec_tx_ok hx
          obtain ⟨hc2, hl2, hp2⟩ := Create_files_ok upload.ID s.txs.length flt _ _ _ _ hy
          have hlen : s.txs.length < b.txs.length := by
            rw [hl2, hl]; simp
          have hpend : b.txs.getD s.txs.length []
              = Write.insertUpload upload.toRow
                :: upload.Files.map (fun e => Write.insertFile { File := e.2, UploadID := upload.ID }) := by
            rw [hp2, hp]
            simp [List.getD_eq_getElem?_getD]
          have hb : b.committed = s.committed := hc2.trans hc
          simp only [DB.commit, hlen, if_true] at h
          have hs2 := congrArg Prod.fst h
          simp only at hs2
          rw [← hs2]
          simp only [DB.view, hpend, hb, List.foldl_cons]
          rw [foldl_insertFile]
          simp [Tables.apply]

/-- Keys of a Files map after one assignment. -/
theorem mem_keys_mapSet (m : List (String × File)) (k : String) (v : File) (k2 : String) :
    k2 ∈ (mapSet m k v).map Prod.fst ↔ k2 ∈ m.map Prod.fst ∨ k2 = k := by
  unfold mapSet
  by_cases hany : m.any (fun e => e.1 == k) = true
  · rw [if_pos hany]
    have hkeys : (m.map (fun e => if e.1 == k then (k, v) else e)).map Prod.fst
        = m.map Prod.fst := by
      rw [List.map_map]
      apply List.map_congr_left
      intro x _
      by_cases hk : x.1 = k
      · simp [hk]
      · simp [hk]
    rw [hkeys]
    constructor
    · exact Or.inl
    · rintro (h | h)
      · exact h
      · obtain ⟨x, hx, hk⟩ := List.any_eq_true.mp hany
        rw [h]
        exact List.mem_map.mpr ⟨x, hx, by simpa using hk⟩
  · rw [if_neg hany]
    simp

/-- A Files map keyed by file id stays so when a file is assigned under its
own id. -/
theorem keyed_mapSet (m : List (String × File)) (v : File)
    (hm : ∀ e ∈ m, e.1 = e.2.ID) : ∀ e ∈ mapSet m v.ID v, e.1 = e.2.ID := by
  unfold mapSet
  by_cases hany : m.any (fun e => e.1 == v.ID) = true
  · rw [if_pos hany]
    intro e he
    obtain ⟨x, hx, hxe⟩ := List.mem_map.mp he
    by_cases hk : x.1 = v.ID
    · simp [hk] at hxe
      rw [← hxe]
    · simp [hk] at hxe
      rw [← hxe]
      exact hm x hx
  · rw [if_neg hany]
    intro e he
    rcases List.mem_append.mp he with h | h
    · exact hm e h
    · simp at h
      rw [h]

/-- The merge loop of Get: the upload keeps its id, its Files map gains the
ids of the rows read, and stays keyed by file id. -/
theorem Get_merge (rows : List SQLFile) :
    ∀ (u : Upload),
      (rows.foldl (fun u f => { u with Files := mapSet u.Files f.File.ID f.File }) u).ID = u.ID ∧
      (∀ k, k ∈ (rows.foldl (fun u f => { u with Files := mapSet u.Files f.File.ID f.File })
            u).Files.map Prod.fst
          ↔ k ∈ u.Files.map Prod.fst ∨ k ∈ rows.map (fun f => f.File.ID)) ∧
      ((∀ e ∈ u.Files, e.1 = e.2.ID) →
        ∀ e ∈ (rows.foldl (fun u f => { u with Files := mapSet u.Files f.File.ID f.File })
            u).Files, e.1 = e.2.ID) := by
  induction rows with
  | nil => intro u; simp
  | cons f rest ih =>
    intro u
    simp only [List.foldl_cons]
    obtain ⟨h1, h2, h3⟩ := ih { u with Files := mapSet u.Files f.File.ID f.File }
    refine ⟨h1, ?_, ?_⟩
    · intro k
      rw [h2 k, mem_keys_mapSet]
      simp only [List.map_cons, List.mem_cons]
      tauto
    · intro hu
      exact h3 (keyed_mapSet u.Files f.File hu)

/-- C3.  Create/Get round trip: on a store that respects the reference from
file rows to upload rows, for an upload with a non-empty id that is not yet in
the store and whose Create returns no error, a following Get(upload.ID) whose
reads are answered returns no error and an Upload with the same id whose Files
mapping is keyed by exactly the identifiers of the original files (and, the
original mapping being keyed by file id, by exactly the original keys). -/
theorem Create_Get_roundtrip (s s2 : DB) (flt : Faults) (upload : Upload)
    (hid : upload.ID ≠ "")
    (hfresh : ∀ r ∈ s.committed.uploads, r.ID ≠ upload.ID)
    (href : FilesReferToUploads s.committed)
    (hcreate : Create s flt (some upload) = (s2, none)) :
    ∃ got : Upload, (Get s2 noFault upload.ID).2 = (some got, none) ∧
      got.ID = upload.ID ∧
      (∀ k, k ∈ got.Files.map Prod.fst ↔ k ∈ upload.Files.map (fun e => e.2.ID)) ∧
      ((∀ e ∈ upload.Files, e.1 = e.2.ID) →
        ∀ k, k ∈ got.Files.map Prod.fst ↔ k ∈ upload.Files.map Prod.fst) := by
  have hc := Create_ok hcreate
  have hold : ∀ f ∈ s.committed.files, f.UploadID ≠ upload.ID := by
    intro f hf hfu
    obtain ⟨u, hu, hue⟩ := href f hf
    exact hfresh u hu (hue.trans hfu)
  have hfind : s2.committed.uploads.find? (fun r => r.ID == upload.ID) = some upload.toRow := by
    rw [hc]
    simp only [List.find?_append]
    have : s.committed.uploads.find? (fun r => r.ID == upload.ID) = none := by
      rw [List.find?_eq_none]
      intro x hx
      simpa using hfresh x hx
    rw [this]
    simp [Upload.toRow]
  have hfilter : s2.committed.files.filter (fun f => f.UploadID == upload.ID)
      = upload.Files.map (fun e => { File := e.2, UploadID := upload.ID }) := by
    rw [hc]
    simp only [List.filter_append]
    have h1 : s.committed.files.filter (fun f => f.UploadID == upload.ID) = [] := by
      rw [List.filter_eq_nil_iff]
      intro x hx
      simpa using hold x hx
    have h2 : (upload.Files.map (fun e => ({ File := e.2, UploadID := upload.ID } : SQLFile))).filter
        (fun f => f.UploadID == upload.ID)
        = upload.Files.map (fun e => { File := e.2, UploadID := upload.ID }) := by
      rw [List.filter_eq_self]
      intro x hx
      obtain ⟨e, _, he⟩ := List.mem_map.mp hx
      rw [← he]
      simp
    rw [h1, h2]
    simp
  obtain ⟨m1, m2, _⟩ := Get_merge
    (upload.Files.map (fun e => ({ File := e.2, UploadID := upload.ID } : SQLFile)))
    (upload.toRow.fill NewUpload)
  refine ⟨_, ?_, m1, ?_, ?_⟩
  · simp only [Get, hid, if_false, selectOne, selectAll, noFault, DB.view, DB.logged, hfind,
      hfilter]
  · intro k
    rw [m2 k]
    simp [UploadRow.fill, NewUpload, List.map_map, Function.comp_def]
  · intro hkeyed k
    rw [m2 k]
    have : upload.Files.map Prod.fst = upload.Files.map (fun e => e.2.ID) :=
      List.map_congr_left hkeyed
    rw [this]
    simp [UploadRow.fill, NewUpload, List.map_map, Function.comp_def]

/-- Witness for C3. -/
theorem Create_Get_roundtrip_witness :
    ∃ got : Upload, (Get (Create emptyDB noFault (some sampleUpload)).1 noFault sampleUpload.ID).2
        = (some got, none) ∧
      got.ID = sampleUpload.ID ∧
      (∀ k, k ∈ got.Files.map Prod.fst ↔ k ∈ sampleUpload.Files.map (fun e => e.2.ID)) ∧
      ((∀ e ∈ sampleUpload.Files, e.1 = e.2.ID) →
        ∀ k, k ∈ got.Files.map Prod.fst ↔ k ∈ sampleUpload.Files.map Prod.fst) :=
  Create_Get_roundtrip emptyDB _ noFault sampleUpload (by decide) (by decide)
    (by intro f hf; simp [emptyDB] at hf) rfl

/-! ### Argument validation -/

/-- The operations that check their arguments (Create, Get, AddOrUpdateFile,
RemoveFile, Remove, GetUser, GetUserUploads) return a warning and leave the
store, its trace included, untouched when a required argument is missing. -/
theorem validated_operations_fail_fast (s : DB) (flt : Faults) (numEq : Int → String → Bool)
    (u : Upload) (f : Option File) (t : Option Token) :
    Create s flt none = (s, some (.warning "Unable to save upload : Missing upload")) ∧
    Get s flt "" = (s, none, some (.warning "Unable to get upload : Missing upload id")) ∧
    AddOrUpdateFile s flt none f = (s, some (.warning "Unable to add file : Missing upload")) ∧
    AddOrUpdateFile s flt (some u) none
      = (s, some (.warning "Unable to add file : Missing file")) ∧
    RemoveFile s none f = (s, some (.warning "Unable to remove file : Missing upload")) ∧
    RemoveFile s (some u) none = (s, some (.warning "Unable to remove file : Missing file")) ∧
    Remove s flt none = (s, some (.warning "Unable to remove upload : Missing upload")) ∧
    GetUser numEq s flt "" ""
      = (s, .returned (none, some (.warning "Unable to get user : Missing user id or token"))) ∧
    GetUserUploads s flt none t
      = (s, [], some (.warning "Unable to get user uploads : Missing user")) := by
  refine ⟨rfl, ?_, rfl, rfl, rfl, rfl, rfl, ?_, rfl⟩
  · simp [Get]
  · simp [GetUser]

/-! ### Failure paths -/

/-- No write statement opens or closes a transaction. -/
theorem exec_txs_length (s : DB) (fault : Option DBError) (h : Handle) (w : Write) :
    (s.exec fault h w).1.txs.length = s.txs.length := by
  unfold DB.exec
  cases fault with
  | some e => simp [DB.logged]
  | none =>
    cases hv : w.violation (s.view h) with
    | some e => simp [DB.logged]
    | none =>
      cases h with
      | db => simp [DB.logged]
      | tx n =>
        by_cases hn : n < s.txs.length
        · simp [hn, DB.logged]
        · simp [hn, DB.logged]

/-- The file loop of Create neither opens nor closes a transaction. -/
theorem Create_files_txs_length (uid : String) (tx : Handle) (flt : Faults) :
    ∀ (fs : List (String × File)) (s : DB) (i : Nat),
      (Create.files uid tx flt s i fs).1.txs.length = s.txs.length := by
  intro fs
  induction fs with
  | nil => intro s i; simp [Create.files]
  | cons e rest ih =>
    intro s i
    obtain ⟨k, file⟩ := e
    unfold Create.files
    have hl := exec_txs_length s (flt i) tx (.insertFile { File := file, UploadID := uid })
    cases hx : s.exec (flt i) tx (.insertFile { File := file, UploadID := uid }) with
    | mk a r =>
      rw [hx] at hl
      cases r with
      | some err => simpa using hl
      | none =>
        simp only
        rw [ih a (i + 1)]
        exact hl

/-- Whenever Create returns an error for a non-nil upload, the transaction it
opened has not been closed: the store holds one more open transaction than
before the call. -/
theorem Create_error_keeps_transaction (s : DB) (flt : Faults) (upload : Upload) (e : Err)
    (herr : (Create s flt (some upload)).2 = some e) :
    (Create s flt (some upload)).1.txs.length = s.txs.length + 1 := by
  unfold Create at herr ⊢
  simp only [DB.begin] at herr ⊢
  have hl := exec_txs_length { s with txs := s.txs ++ [[]], trace := s.trace ++ [.begin] }
    (flt 0) (.tx s.txs.length) (.insertUpload upload.toRow)
  cases hx : DB.exec { s with txs := s.txs ++ [[]], trace := s.trace ++ [.begin] } (flt 0)
      (.tx s.txs.length) (.insertUpload upload.toRow) with
  | mk a r =>
    rw [hx] at hl
    cases r with
    | some err => simpa [DB.rollback, DB.logged] using hl
    | none =>
      have hl2 := Create_files_txs_length upload.ID (.tx s.txs.length) flt upload.Files a 1
      cases hy : Create.files upload.ID (.tx s.txs.length) flt a 1 upload.Files with
      | mk b r2 =>
        rw [hy] at hl2
        cases r2 with
        | some err =>
          simp only [hy, DB.rollback, DB.logged]
          simp only at hl hl2
          rw [hl2, hl]
          simp
        | none => simp [hx, hy] at herr

/-- On the id branch of GetUser a store failure other than record-not-found
on the first read is returned with a nil user. -/
theorem GetUser_first_read_failure (numEq : Int → String → Bool) (s : DB) (flt : Faults)
    (id token : String) (e : DBError) (hid : id ≠ "")
    (hf : flt 0 = some e) (hne : e ≠ .recordNotFound) :
    (GetUser numEq s flt id token).2 = .returned (none, some (.store e)) := by
  unfold GetUser
  simp [hid, selectOne, hf, hne]

/-- With an empty id and a non-empty token GetUser panics at its first read,
on every store and under every failure schedule. -/
theorem GetUser_token_branch_panics (numEq : Int → String → Bool) (s : DB) (flt : Faults)
    (token : String) (htok : token ≠ "") :
    GetUser numEq s flt "" token = (s, .panicked) := by
  simp [GetUser, htok, selectIntoValue]

end Plik
